import Mathlib

/-!
# Verification of the Consensys debate orchestrator

This file gives a shallow embedding of the multi-agent code-review debate
orchestrator (`src/orchestrator/debate.py`, class `DebateOrchestrator`) and
proves properties of its round state machine and consensus aggregation.

Conventions:
* The record types `Review`, `Response`, `Vote`, `Consensus` live in the
  repository's `src.models.review` module, which only appears here through its
  use sites and the spec's data model; they are plain records and are modelled
  from the spec (see the individual doc comments).
* Python strings are Lean `String`s; Python `None`-able fields are `Option`s.
* The concurrent fan-out of a round settles into a list of successful task
  results; the arrival order of that list is nondeterministic, so the
  embedding takes the settled list as an explicit argument and the theorems
  quantify over it.  Everything after the join (precondition checks, task-set
  construction, sorting, conversion, accumulation) is deterministic and is
  translated directly from the Python source.
* The display-only `confidence` field (a float) is omitted from the records:
  no orchestration or aggregation decision reads it.
-/

namespace Consensys

/-- Modelled from the spec: vote decisions `APPROVE`, `REJECT`, `ABSTAIN`
(`VoteDecision` enum of `src.models.review`). -/
inductive VoteDecision where
  | APPROVE
  | REJECT
  | ABSTAIN
deriving DecidableEq, Repr

/-- Modelled from the spec: issue severities `LOW`, `MEDIUM`, `HIGH`,
`CRITICAL`. In the Python source severities are strings; the spec's data
model fixes this four-value enum. -/
inductive Severity where
  | LOW
  | MEDIUM
  | HIGH
  | CRITICAL
deriving DecidableEq, Repr

/-- Modelled from the spec: agreement levels of a Response. -/
inductive AgreementLevel where
  | AGREE
  | PARTIAL
  | DISAGREE
deriving DecidableEq, Repr

/-- Modelled from the spec: one issue record inside a Review:
`{description, severity, optional line}`.  In the source an issue is a dict
with a required `description` (every aggregation site reads
`issue["description"]`/`issue.get("description", ...)`) and a `severity`
defaulting to `LOW`. -/
structure Issue where
  description : String
  severity : Severity
  line : Option Nat := none
deriving DecidableEq, Repr

/-- Modelled from the spec: a Round-1 `Review` record
(`src.models.review.Review`): agent name, ordered issues, ordered
suggestions, overall severity, summary, session id. -/
structure Review where
  agentName : String
  issues : List Issue
  suggestions : List String
  severity : Severity
  summary : String
  sessionId : String
deriving DecidableEq, Repr

/-- The in-flight result of one `agent.review(...)` call
(`src.agents.agent.ReviewResult`); same payload as `Review` without the
session id. Modelled from the spec: ReviewerCapability output. -/
structure ReviewResult where
  agentName : String
  issues : List Issue
  suggestions : List String
  severity : Severity
  summary : String
deriving DecidableEq, Repr

/-- `Review(agent_name=result.agent_name, ..., session_id=self.session_id)`:
the conversion performed in `start_review`. -/
def Review.ofResult (r : ReviewResult) (sessionId : String) : Review :=
  ⟨r.agentName, r.issues, r.suggestions, r.severity, r.summary, sessionId⟩

/-- Modelled from the spec: a Round-2 `Response` record. -/
structure Response where
  agentName : String
  respondingTo : String
  agreementLevel : AgreementLevel
  points : List String
  summary : String
  sessionId : String
deriving DecidableEq, Repr

/-- The in-flight result of one `agent.respond_to(...)` call
(`src.agents.agent.ResponseResult`). Modelled from the spec. -/
structure ResponseResult where
  agentName : String
  respondingTo : String
  agreementLevel : AgreementLevel
  points : List String
  summary : String
deriving DecidableEq, Repr

/-- The conversion performed in `run_responses`. -/
def Response.ofResult (r : ResponseResult) (sessionId : String) : Response :=
  ⟨r.agentName, r.respondingTo, r.agreementLevel, r.points, r.summary, sessionId⟩

/-- Modelled from the spec: a Round-3 `Vote` record. -/
structure Vote where
  agentName : String
  decision : VoteDecision
  reasoning : String
  sessionId : String
deriving DecidableEq, Repr

/-- The in-flight result of one `agent.vote(...)` call
(`src.agents.agent.VoteResult`). Modelled from the spec. -/
structure VoteResult where
  agentName : String
  decision : VoteDecision
  reasoning : String
deriving DecidableEq, Repr

/-- The conversion performed in `run_voting`. -/
def Vote.ofResult (r : VoteResult) (sessionId : String) : Vote :=
  ⟨r.agentName, r.decision, r.reasoning, sessionId⟩

/-- The tally dict `{"APPROVE": _, "REJECT": _, "ABSTAIN": _}` built by
`build_consensus`; all three keys are always present. -/
structure VoteCounts where
  approve : Nat
  reject : Nat
  abstain : Nat
deriving DecidableEq, Repr

/-- Modelled from the spec: the terminal `Consensus` record. -/
structure Consensus where
  finalDecision : VoteDecision
  voteCounts : VoteCounts
  keyIssues : List Issue
  acceptedSuggestions : List String
  sessionId : String
  codeSnippet : Option String
  context : Option String
deriving DecidableEq, Repr

/-! ## Aggregation primitives (from `build_consensus`, debate.py lines 769-824) -/

/-- Python `str.strip()` on the character sequence: drop whitespace from
both ends. -/
def pyStrip (l : List Char) : List Char :=
  ((l.dropWhile Char.isWhitespace).reverse.dropWhile Char.isWhitespace).reverse

/-- Python `s.lower().strip()`: the normalization applied to issue
descriptions and suggestion strings before mention counting.  Implemented
character-wise over the string data (`Char.toLower` is the ASCII model of
`str.lower()`). -/
def pyNorm (s : String) : String :=
  ⟨pyStrip (s.data.map Char.toLower)⟩

/-- One step of the aggregation loops of `build_consensus`: the state is the
pair (mention-count dict, first-seen accumulation list).  For issues the key
is the normalized description, for suggestions the normalized string itself:

```python
issue_mentions[desc_lower] = issue_mentions.get(desc_lower, 0) + 1
if desc_lower not in [i.get("description", "").lower().strip() for i in all_issues]:
    all_issues.append(issue)
```

The dict is represented as a total function `String → Nat` with default 0
(Python `dict.get(k, 0)`). -/
def pyScan (key : α → String) :
    ((String → Nat) × List α) → List α → ((String → Nat) × List α)
  | st, [] => st
  | st, x :: rest =>
      let k := key x
      pyScan key
        (fun q => if q == k then st.1 q + 1 else st.1 q,
         if (st.2.map key).contains k then st.2 else st.2 ++ [x])
        rest

/-- The flattened traversal order of the nested loops
`for review in self.reviews: for issue in review.issues:` -/
def allIssueInstances (reviews : List Review) : List Issue :=
  reviews.flatMap (·.issues)

/-- Traversal order of `for review in self.reviews: for suggestion in
review.suggestions:` -/
def allSuggestionInstances (reviews : List Review) : List String :=
  reviews.flatMap (·.suggestions)

/-- `severity in ("CRITICAL", "HIGH")` of debate.py line 806. -/
def Severity.isHigh : Severity → Bool
  | .CRITICAL => true
  | .HIGH => true
  | _ => false

/-- The `key_issues` list computed by `build_consensus` (lines 787-807):
scan all issues building the mention dict and the first-seen list
`all_issues`, then keep the issues mentioned at least twice or whose
severity is CRITICAL or HIGH. -/
def consensusKeyIssues (reviews : List Review) : List Issue :=
  let st := pyScan (fun i => pyNorm i.description)
    (fun _ => 0, []) (allIssueInstances reviews)
  st.2.filter fun issue =>
    decide (2 ≤ st.1 (pyNorm issue.description)) || issue.severity.isHigh

/-- The `accepted_suggestions` list computed by `build_consensus`
(lines 809-824): identical scan over suggestion strings, promotion only by
mention count. -/
def consensusAcceptedSuggestions (reviews : List Review) : List String :=
  let st := pyScan pyNorm (fun _ => 0, []) (allSuggestionInstances reviews)
  st.2.filter fun s => decide (2 ≤ st.1 (pyNorm s))

/-- The vote tally of `build_consensus` lines 769-773.  Every decision is
one of the three enum values, so the `if decision_str in vote_counts` guard
always passes. -/
def countVotes (votes : List Vote) : VoteCounts :=
  votes.foldl
    (fun c v =>
      match v.decision with
      | .APPROVE => { c with approve := c.approve + 1 }
      | .REJECT => { c with reject := c.reject + 1 }
      | .ABSTAIN => { c with abstain := c.abstain + 1 })
    ⟨0, 0, 0⟩

/-- The final-decision rule of `build_consensus` lines 775-785. -/
def decideFinal (c : VoteCounts) : VoteDecision :=
  if c.approve > c.reject then .APPROVE
  else if c.reject > c.approve then .REJECT
  else .REJECT

/-! ## Spec-side formulations of the aggregation

These definitions follow the spec's words (§4.5) and are compared with the
source-translated definitions above. -/

/-- Number of occurrences of the normalized key `k` in the scan order:
"count mentions per normalized description". -/
def countKey (key : α → String) (l : List α) (k : String) : Nat :=
  (l.filter fun x => key x == k).length

/-- "Promotion preserves the first-seen original (non-normalized) record, in
the order first encountered": keep the first occurrence of each normalized
key, dropping later ones. -/
def keepFirst (key : α → String) : List α → List α
  | [] => []
  | x :: xs => x :: keepFirst key (xs.filter fun y => !(key y == key x))
termination_by l => l.length
decreasing_by
  simp only [List.length_cons]
  exact Nat.lt_succ_of_le (List.length_filter_le _ _)

/-- The spec's key-issue promotion rule (§4.5), stated over its own words:
first-seen dedup of all issue instances in panel scan order, keeping those
with mention count at least 2 or severity CRITICAL or HIGH. -/
def specKeyIssues (reviews : List Review) : List Issue :=
  let flat := allIssueInstances reviews
  (keepFirst (fun i => pyNorm i.description) flat).filter fun i =>
    decide (2 ≤ countKey (fun j => pyNorm j.description) flat (pyNorm i.description))
      || i.severity.isHigh

/-- The spec's suggestion promotion rule (§4.5): identical
normalization/mention-counting, promotion only when the mention count is at
least 2, severity playing no role. -/
def specAcceptedSuggestions (reviews : List Review) : List String :=
  let flat := allSuggestionInstances reviews
  (keepFirst pyNorm flat).filter fun s =>
    decide (2 ≤ countKey pyNorm flat (pyNorm s))

/-! ## The orchestrator state machine (`DebateOrchestrator`) -/

/-- The per-session mutable state of `DebateOrchestrator` (debate.py lines
43-50).  The panel (`self.agents`) is fixed at construction and passed
separately to the round operations; the storage and console are external
effects with no bearing on the state machine. -/
structure OrchestratorState where
  sessionId : Option String
  code : Option String
  context : Option String
  reviews : List Review
  responses : List Response
  votes : List Vote
  consensus : Option Consensus
deriving DecidableEq, Repr

/-- Python truthiness of `self.session_id` / `self.code`: `None` and the
empty string are falsy. -/
def optTruthy : Option String → Bool
  | none => false
  | some s => !(s == "")

/-- `get_responses` (debate.py line 497). -/
def get_responses (st : OrchestratorState) : List Response :=
  st.responses

/-- `get_reviews` (debate.py line 513). -/
def get_reviews (st : OrchestratorState) : List Review :=
  st.reviews

/-- `get_votes` (debate.py line 521). -/
def get_votes (st : OrchestratorState) : List Vote :=
  st.votes

/-- `get_consensus` (debate.py line 529). -/
def get_consensus (st : OrchestratorState) : Option Consensus :=
  st.consensus

/-- `get_session_id` (debate.py line 505). -/
def get_session_id (st : OrchestratorState) : Option String :=
  st.sessionId

/-- Round 1, `start_review` (debate.py lines 126-237).

`newSessionId` is the fresh id produced by `storage.create_session`;
`reviewOf a` is the settled outcome of agent `a`'s `review(code, context)`
call (`none` when the call raised, in which case the agent is skipped).

The method first creates the session and resets `self.reviews` (lines
143-147).  `ThreadPoolExecutor(max_workers=len(self.agents))` then raises
`ValueError("max_workers must be greater than 0")` when the panel is empty,
so an empty panel aborts with the session state already reset.  Otherwise
the post-join loop (lines 208-232) walks the panel in order and converts,
stores and accumulates each successful result. -/
def start_review (st : OrchestratorState) (agents : List String)
    (newSessionId : String) (code : String) (context : Option String)
    (reviewOf : String → Option ReviewResult) :
    OrchestratorState × Except String (List Review) :=
  let st := { st with
    sessionId := some newSessionId
    code := some code
    context := context
    reviews := [] }
  if agents.isEmpty then
    (st, .error "max_workers must be greater than 0")
  else
    let reviews := agents.filterMap fun a =>
      (reviewOf a).map fun r => Review.ofResult r newSessionId
    ({ st with reviews := reviews }, .ok reviews)

/-- The Python dict insertion `m[k] = v`: overwrite in place when the key is
present, else append. -/
def dictInsert (m : List (String × β)) (k : String) (v : β) :
    List (String × β) :=
  if (m.map Prod.fst).contains k then
    m.map fun p => if p.1 == k then (p.1, v) else p
  else
    m ++ [(k, v)]

/-- The `review_results` dict of `run_responses` (lines 406-415), keyed by
`review.agent_name` in insertion order. -/
def reviewResultsDict (reviews : List Review) : List (String × Review) :=
  reviews.foldl (fun m r => dictInsert m r.agentName r) []

/-- The `response_tasks` pair set of `run_responses` (lines 417-423): every
panel agent against every entry of the reviews dict, skipping self-responses.
Each pair is recorded as (responder name, reviewed agent name). -/
def responseTasks (agents : List String) (reviews : List Review) :
    List (String × String) :=
  agents.flatMap fun a =>
    (reviewResultsDict reviews).filterMap fun p =>
      if a ≠ p.1 then some (a, p.1) else none

/-- The sort key of debate.py line 470: `(r.agent_name, r.responding_to)`,
compared lexicographically.  Python compares strings as sequences of code
points, modelled by the lexicographic order on `String.data`. -/
def respLE (a b : ResponseResult) : Prop :=
  a.agentName.data < b.agentName.data
    ∨ (a.agentName.data = b.agentName.data
        ∧ a.respondingTo.data ≤ b.respondingTo.data)

instance : DecidableRel respLE := fun a b => by
  unfold respLE; infer_instance

instance : IsTotal ResponseResult respLE where
  total a b := by
    rcases lt_trichotomy a.agentName.data b.agentName.data with h | h | h
    · exact Or.inl (Or.inl h)
    · rcases le_total a.respondingTo.data b.respondingTo.data with h2 | h2
      · exact Or.inl (Or.inr ⟨h, h2⟩)
      · exact Or.inr (Or.inr ⟨h.symm, h2⟩)
    · exact Or.inr (Or.inl h)

instance : IsTrans ResponseResult respLE where
  trans a b c hab hbc := by
    rcases hab with h1 | ⟨h1, h2⟩
    · rcases hbc with h3 | ⟨h3, _⟩
      · exact Or.inl (lt_trans h1 h3)
      · exact Or.inl (h3 ▸ h1)
    · rcases hbc with h3 | ⟨h3, h4⟩
      · exact Or.inl (h1 ▸ h3)
      · exact Or.inr ⟨h1.trans h3, le_trans h2 h4⟩

/-- Round 2, `run_responses` (debate.py lines 379-495).

`completed` is the settled list of successful `respond_to` results in
as_completed arrival order; the tasks attempted are `responseTasks agents
st.reviews` (the connection is a hypothesis of the theorems, since arrival
order and the failing subset are nondeterministic).  After the join the
source sorts by `(agent_name, responding_to)` (a stable sort, so any stable
sort computes the same list; `List.insertionSort` is stable), converts,
stores and accumulates into the freshly reset `self.responses`. -/
def run_responses (st : OrchestratorState) (agents : List String)
    (completed : List ResponseResult) :
    OrchestratorState × Except String (List Response) :=
  if st.reviews.isEmpty then
    (st, .error "No reviews to respond to. Call start_review() first.")
  else if !(optTruthy st.sessionId) || !(optTruthy st.code) then
    (st, .error "No active session. Call start_review() first.")
  else
    -- the ordered pairs submitted to the thread pool; `completed` is the
    -- nondeterministic settling of exactly these tasks
    let _tasks := responseTasks agents st.reviews
    let sid := st.sessionId.getD ""
    let sorted := completed.insertionSort respLE
    let responses := sorted.map fun r => Response.ofResult r sid
    ({ st with responses := responses }, .ok responses)

/-- The sort key of debate.py line 718: `v.agent_name`, again as Python
string comparison over the code-point sequence. -/
def voteLE (a b : VoteResult) : Prop :=
  a.agentName.data ≤ b.agentName.data

instance : DecidableRel voteLE := fun a b => by
  unfold voteLE; infer_instance

instance : IsTotal VoteResult voteLE where
  total a b := le_total a.agentName.data b.agentName.data

instance : IsTrans VoteResult voteLE where
  trans _ _ _ hab hbc := le_trans hab hbc

/-- Round 3, `run_voting` (debate.py lines 610-741).  Same shape as
`run_responses`: precondition on a non-empty review set, settle, sort by
agent name, convert, store, accumulate into the reset `self.votes`. -/
def run_voting (st : OrchestratorState) (completed : List VoteResult) :
    OrchestratorState × Except String (List Vote) :=
  if st.reviews.isEmpty then
    (st, .error "No reviews to base votes on. Call start_review() first.")
  else if !(optTruthy st.sessionId) || !(optTruthy st.code) then
    (st, .error "No active session. Call start_review() first.")
  else
    let sid := st.sessionId.getD ""
    let sorted := completed.insertionSort voteLE
    let votes := sorted.map fun r => Vote.ofResult r sid
    ({ st with votes := votes }, .ok votes)

/-- `build_consensus` (debate.py lines 743-843): precondition checks, vote
tally, final decision, issue and suggestion promotion, consensus record. -/
def build_consensus (st : OrchestratorState) :
    OrchestratorState × Except String Consensus :=
  if st.votes.isEmpty then
    (st, .error "No votes to build consensus from. Call run_voting() first.")
  else if !(optTruthy st.sessionId) || !(optTruthy st.code) then
    (st, .error "No active session. Call start_review() first.")
  else
    let voteCounts := countVotes st.votes
    let c : Consensus :=
      { finalDecision := decideFinal voteCounts
        voteCounts := voteCounts
        keyIssues := consensusKeyIssues st.reviews
        acceptedSuggestions := consensusAcceptedSuggestions st.reviews
        sessionId := st.sessionId.getD ""
        codeSnippet := st.code
        context := st.context }
    ({ st with consensus := some c }, .ok c)

/-! ## Concrete instances used by the scenario theorems and witnesses -/

/-- A freshly constructed orchestrator: no session, all collections empty. -/
def emptyState : OrchestratorState :=
  ⟨none, none, none, [], [], [], none⟩

/-- The spec's tie scenario: 4 reviewers, votes APPROVE, APPROVE, REJECT,
REJECT, inside an active session. -/
def c1State : OrchestratorState where
  sessionId := some "sess-1"
  code := some "def f(): pass"
  context := none
  reviews := []
  responses := []
  votes :=
    [⟨"Alice", .APPROVE, "looks fine", "sess-1"⟩,
     ⟨"Bob", .APPROVE, "ok", "sess-1"⟩,
     ⟨"Carol", .REJECT, "bug", "sess-1"⟩,
     ⟨"Dave", .REJECT, "risky", "sess-1"⟩]
  consensus := none

/-- Two reviews mentioning the same issue up to normalization, with
different original spellings. -/
def c2Reviews : List Review :=
  [⟨"SecurityExpert",
    [⟨"SQL injection", .CRITICAL, some 3⟩, ⟨"magic numbers", .LOW, none⟩],
    [], .CRITICAL, "bad", "sess-2"⟩,
   ⟨"PragmaticDev", [⟨"  sql Injection ", .MEDIUM, none⟩],
    [], .MEDIUM, "meh", "sess-2"⟩]

/-- A single review whose author repeats the same normalized suggestion
twice: the panel contains exactly one reviewer mentioning it. -/
def c3Review : Review :=
  ⟨"SecurityExpert", [], ["Validate input", "validate input"], .LOW, "",
   "sess-3"⟩

/-- Two reviewers sharing one normalized suggestion. -/
def c3Reviews : List Review :=
  [⟨"Alice", [], ["Add tests"], .LOW, "", "sess-3"⟩,
   ⟨"Bob", [], ["add tests  ", "refactor"], .LOW, "", "sess-3"⟩]

/-- A 3-agent panel for the complete-pair-set witness. -/
def c4Agents : List String :=
  ["Alice", "Bob", "Carol"]

/-- State after a fully successful Round 1 over `c4Agents`. -/
def c4State : OrchestratorState where
  sessionId := some "sess-4"
  code := some "x = 1"
  context := none
  reviews :=
    [⟨"Alice", [], [], .LOW, "", "sess-4"⟩,
     ⟨"Bob", [], [], .LOW, "", "sess-4"⟩,
     ⟨"Carol", [], [], .LOW, "", "sess-4"⟩]
  responses := []
  votes := []
  consensus := none

/-- One successful respond result per task, arriving in reversed order. -/
def c4Completed : List ResponseResult :=
  (responseTasks c4Agents c4State.reviews).reverse.map fun p =>
    ⟨p.1, p.2, .AGREE, [], ""⟩

/-- The 4-reviewer panel of the partial-failure scenario. -/
def c5Agents : List String :=
  ["Alice", "Bob", "Carol", "Dave"]

/-- Review outcomes: Dave's `review()` call raises, the other three
succeed. -/
def c5ReviewOf : String → Option ReviewResult := fun a =>
  if a == "Dave" then none else some ⟨a, [], [], .LOW, "fine"⟩

/-- Round 1 of the partial-failure scenario. -/
def c5Round1 : OrchestratorState × Except String (List Review) :=
  start_review emptyState c5Agents "sess-5" "print(1)" none c5ReviewOf

/-- The Round-2 task set of the partial-failure scenario. -/
def c5Tasks : List (String × String) :=
  responseTasks c5Agents c5Round1.1.reviews

/-- Every respond call succeeds: one result per task, in task order. -/
def c5Completed : List ResponseResult :=
  c5Tasks.map fun p => ⟨p.1, p.2, .AGREE, [], "agreed"⟩

/-- Round 2 of the partial-failure scenario. -/
def c5Round2 : OrchestratorState × Except String (List Response) :=
  run_responses c5Round1.1 c5Agents c5Completed

/-- Every panel member votes (voting does not require a Round-1 success). -/
def c5Votes : List VoteResult :=
  c5Agents.map fun a => ⟨a, .APPROVE, "ship it"⟩

/-- Round 3 of the partial-failure scenario. -/
def c5Round3 : OrchestratorState × Except String (List Vote) :=
  run_voting c5Round2.1 c5Votes

/-- Consensus stage of the partial-failure scenario. -/
def c5Final : OrchestratorState × Except String Consensus :=
  build_consensus c5Round3.1

/-- An active session with one review, used by the sorting witness. -/
def c7State : OrchestratorState where
  sessionId := some "sess-7"
  code := some "y = 2"
  context := none
  reviews := [⟨"Alice", [], [], .LOW, "", "sess-7"⟩]
  responses := []
  votes := []
  consensus := none

/-- Two respond results arriving out of sorted order. -/
def c7Completed : List ResponseResult :=
  [⟨"Bob", "Alice", .AGREE, [], ""⟩, ⟨"Alice", "Bob", .PARTIAL, [], ""⟩]

/-- Two vote results arriving out of sorted order. -/
def c7Votes : List VoteResult :=
  [⟨"Bob", .APPROVE, ""⟩, ⟨"Alice", .REJECT, ""⟩]

/-! ## General lemmas about the aggregation scan -/

theorem beqDecide (a b : String) : (a == b) = decide (a = b) :=
  rfl

theorem pyScan_fst (key : α → String) (l : List α) :
    ∀ (st : (String → Nat) × List α) (q : String),
      (pyScan key st l).1 q = st.1 q + countKey key l q := by
  induction l with
  | nil => intro st q; simp [pyScan, countKey]
  | cons x rest ih =>
      intro st q
      simp only [pyScan]
      rw [ih]
      simp only [countKey, List.filter_cons]
      by_cases h : q = key x
      · simp only [h, beq_self_eq_true, if_true, List.length_cons]
        omega
      · have hb : (key x == q) = false := by
          simp only [beqDecide, decide_eq_false_iff_not]
          exact fun e => h e.symm
        have hb2 : (q == key x) = false := by
          simp only [beqDecide, decide_eq_false_iff_not]
          exact h
        simp [hb, hb2, countKey]

theorem pyScan_snd (key : α → String) (l : List α) :
    ∀ (m : String → Nat) (acc : List α),
      (pyScan key (m, acc) l).2
        = acc ++ keepFirst key (l.filter fun x => !((acc.map key).contains (key x))) := by
  induction l with
  | nil => intro m acc; simp [pyScan, keepFirst]
  | cons x rest ih =>
      intro m acc
      simp only [pyScan]
      by_cases h : ((acc.map key).contains (key x)) = true
      · simp only [h, if_true]
        rw [ih]
        have hpx : (!(acc.map key).contains (key x)) = false := by
          rw [h]; rfl
        rw [List.filter_cons, hpx]
        simp only [Bool.false_eq_true, if_false]
      · have hfalse : ((acc.map key).contains (key x)) = false :=
          Bool.not_eq_true _ ▸ (Bool.eq_false_iff.mpr fun hh => h hh)
        simp only [hfalse, Bool.false_eq_true, if_false]
        rw [ih]
        have hpx : (!(acc.map key).contains (key x)) = true := by
          rw [hfalse]; rfl
        rw [List.filter_cons, hpx]
        simp only [if_true]
        rw [keepFirst]
        rw [List.append_assoc, List.singleton_append]
        have hfilters :
            rest.filter (fun y => !((List.map key (acc ++ [x])).contains (key y)))
              = (rest.filter fun y => !((acc.map key).contains (key y))).filter
                  (fun y => !(key y == key x)) := by
          rw [List.filter_filter]
          apply List.filter_congr
          intro y _
          simp [List.map_append, Bool.not_or, Bool.and_comm, beqDecide]
        rw [hfilters]

theorem keepFirst_sublist (key : α → String) (l : List α) :
    (keepFirst key l).Sublist l := by
  induction l using keepFirst.induct key with
  | case1 => simp [keepFirst]
  | case2 x xs ih =>
      rw [keepFirst]
      exact (ih.trans (List.filter_sublist _)).cons₂ x

theorem keepFirst_map_key_nodup (key : α → String) (l : List α) :
    ((keepFirst key l).map key).Nodup := by
  induction l using keepFirst.induct key with
  | case1 => simp [keepFirst]
  | case2 x xs ih =>
      rw [keepFirst]
      simp only [List.map_cons, List.nodup_cons]
      refine ⟨?_, ih⟩
      intro hmem
      rcases List.mem_map.mp hmem with ⟨y, hy, hk⟩
      have hyf : y ∈ xs.filter (fun y => !(key y == key x)) :=
        (keepFirst_sublist key _).subset hy
      have hne := (List.mem_filter.mp hyf).2
      rw [hk] at hne
      simp [beqDecide] at hne

theorem keepFirst_exists_key (key : α → String) (l : List α) :
    ∀ k, (∃ x ∈ l, key x = k) → ∃ x ∈ keepFirst key l, key x = k := by
  induction l using keepFirst.induct key with
  | case1 => intro k h; simp at h
  | case2 x xs ih =>
      intro k h
      rw [keepFirst]
      by_cases hk : key x = k
      · exact ⟨x, List.mem_cons_self .., hk⟩
      · rcases h with ⟨y, hy, hyk⟩
        rcases List.mem_cons.mp hy with rfl | hy2
        · exact absurd hyk hk
        · have hyf : y ∈ xs.filter (fun y => !(key y == key x)) := by
            refine List.mem_filter.mpr ⟨hy2, ?_⟩
            simp only [beqDecide, Bool.not_eq_eq_eq_not, Bool.not_true,
              decide_eq_false_iff_not]
            intro e
            exact hk (e ▸ hyk)
          rcases ih k ⟨y, hyf, hyk⟩ with ⟨z, hz, hzk⟩
          exact ⟨z, List.mem_cons_of_mem _ hz, hzk⟩

theorem countP_key_le_one (key : α → String) (l : List α)
    (hn : (l.map key).Nodup) (d : String) :
    l.countP (fun x => key x == d) ≤ 1 := by
  induction l with
  | nil => simp
  | cons x xs ih =>
      simp only [List.map_cons, List.nodup_cons] at hn
      rw [List.countP_cons]
      by_cases h : key x = d
      · have hz : xs.countP (fun x => key x == d) = 0 := by
          rw [List.countP_eq_zero]
          intro a ha
          simp only [beqDecide, decide_eq_true_eq]
          intro e
          exact hn.1 (List.mem_map.mpr ⟨a, ha, e.trans h.symm⟩)
        have hpx : (key x == d) = true := by simp [beqDecide, h]
        rw [hz, hpx]
        simp
      · have hpx : (key x == d) = false := by
          simp [beqDecide, h]
        simp only [hpx, if_false]
        exact Nat.le_trans (Nat.le_of_eq (Nat.add_zero _)) (ih hn.2)

theorem consensusKeyIssues_eq_spec (reviews : List Review) :
    consensusKeyIssues reviews = specKeyIssues reviews := by
  simp only [consensusKeyIssues, specKeyIssues]
  rw [pyScan_snd]
  simp only [List.map_nil, List.nil_append]
  have hfl : (allIssueInstances reviews).filter
      (fun x => !(List.nil.contains (pyNorm x.description)))
        = allIssueInstances reviews := by
    apply List.filter_eq_self.mpr
    intro a _
    rfl
  rw [hfl]
  apply List.filter_congr
  intro i _
  rw [pyScan_fst]
  simp

theorem consensusAcceptedSuggestions_eq_spec (reviews : List Review) :
    consensusAcceptedSuggestions reviews = specAcceptedSuggestions reviews := by
  simp only [consensusAcceptedSuggestions, specAcceptedSuggestions]
  rw [pyScan_snd]
  simp only [List.map_nil, List.nil_append]
  have hfl : (allSuggestionInstances reviews).filter
      (fun x => !(List.nil.contains (pyNorm x)))
        = allSuggestionInstances reviews := by
    apply List.filter_eq_self.mpr
    intro a _
    rfl
  rw [hfl]
  apply List.filter_congr
  intro s _
  rw [pyScan_fst]
  simp

/-! ## Lemmas about the vote tally and final decision -/

theorem countVotes_eq (votes : List Vote) :
    countVotes votes
      = ⟨(votes.filter fun v => v.decision == VoteDecision.APPROVE).length,
         (votes.filter fun v => v.decision == VoteDecision.REJECT).length,
         (votes.filter fun v => v.decision == VoteDecision.ABSTAIN).length⟩ := by
  suffices h : ∀ (vs : List Vote) (c : VoteCounts),
      vs.foldl
        (fun c v =>
          match v.decision with
          | .APPROVE => { c with approve := c.approve + 1 }
          | .REJECT => { c with reject := c.reject + 1 }
          | .ABSTAIN => { c with abstain := c.abstain + 1 })
        c
        = ⟨c.approve + (vs.filter fun v => v.decision == VoteDecision.APPROVE).length,
           c.reject + (vs.filter fun v => v.decision == VoteDecision.REJECT).length,
           c.abstain + (vs.filter fun v => v.decision == VoteDecision.ABSTAIN).length⟩ by
    have h0 := h votes ⟨0, 0, 0⟩
    simpa [countVotes] using h0
  intro vs
  induction vs with
  | nil => intro c; simp
  | cons v rest ih =>
      intro c
      rw [List.foldl_cons, ih]
      cases hv : v.decision <;>
        simp [List.filter_cons, hv, Nat.add_comm, Nat.add_assoc, Nat.add_left_comm]

theorem decideFinal_approve {c : VoteCounts} (h : c.reject < c.approve) :
    decideFinal c = .APPROVE := by
  simp only [decideFinal, gt_iff_lt]
  rw [if_pos h]

theorem decideFinal_reject {c : VoteCounts} (h : c.approve < c.reject) :
    decideFinal c = .REJECT := by
  simp only [decideFinal, gt_iff_lt]
  rw [if_neg (by omega), if_pos h]

theorem decideFinal_tie {c : VoteCounts} (h : c.approve = c.reject) :
    decideFinal c = .REJECT := by
  simp only [decideFinal, gt_iff_lt]
  rw [if_neg (by omega), if_neg (by omega)]

/-! ## Lemmas about the Round-2 task set -/

theorem reviewResultsDict_eq (reviews : List Review)
    (hnd : (reviews.map Review.agentName).Nodup) :
    reviewResultsDict reviews = reviews.map fun r => (r.agentName, r) := by
  suffices aux : ∀ (rs : List Review) (acc : List (String × Review)),
      (rs.map Review.agentName).Nodup →
      (∀ r ∈ rs, ((acc.map Prod.fst).contains r.agentName) = false) →
      rs.foldl (fun m r => dictInsert m r.agentName r) acc
        = acc ++ rs.map fun r => (r.agentName, r) by
    have h0 := aux reviews [] hnd (fun r _ => rfl)
    simpa [reviewResultsDict] using h0
  intro rs
  induction rs with
  | nil => intro acc _ _; simp
  | cons r rest ih =>
      intro acc hnd hacc
      simp only [List.map_cons, List.nodup_cons] at hnd
      simp only [List.foldl_cons]
      rw [dictInsert, hacc r (List.mem_cons_self ..)]
      simp only [Bool.false_eq_true, if_false]
      rw [ih (acc ++ [(r.agentName, r)]) hnd.2 ?_]
      · simp
      · intro r' hr'
        have h1 := hacc r' (List.mem_cons_of_mem _ hr')
        have h2 : r'.agentName ≠ r.agentName := by
          intro e
          exact hnd.1 (List.mem_map.mpr ⟨r', hr', e⟩)
        simp only [List.map_append, List.map_cons, List.map_nil]
        rw [List.contains_eq_any_beq] at h1 ⊢
        simp only [List.any_append, h1, Bool.false_or, List.any_cons,
          List.any_nil, Bool.or_false]
        simp [beqDecide, h2]

theorem filterMapIf_length (a : String) (m : List (String × Review)) :
    (m.filterMap fun p => if a ≠ p.1 then some (a, p.1) else none).length
      = (m.map Prod.fst).countP fun n => !(n == a) := by
  induction m with
  | nil => rfl
  | cons p rest ih =>
      by_cases h : a = p.1
      · have hcond : (if a ≠ p.1 then some (a, p.1) else none) = none := by
          rw [if_neg]
          simp [h]
        have hp : (!(p.1 == a)) = false := by simp [beqDecide, h.symm]
        rw [List.filterMap_cons, hcond, List.map_cons, List.countP_cons, hp]
        rw [ih]
        simp
      · have hcond : (if a ≠ p.1 then some (a, p.1) else none)
            = some (a, p.1) := by
          rw [if_pos h]
        have hp : (!(p.1 == a)) = true := by
          have hne : p.1 ≠ a := by
            intro e
            exact h e.symm
          simp [beqDecide, hne]
        rw [List.filterMap_cons, hcond, List.map_cons, List.countP_cons, hp]
        rw [List.length_cons, ih]
        simp

theorem countP_ne_of_nodup (names : List String) (hnd : names.Nodup)
    (a : String) (ha : a ∈ names) :
    names.countP (fun n => !(n == a)) = names.length - 1 := by
  induction names with
  | nil => cases ha
  | cons n rest ih =>
      simp only [List.nodup_cons] at hnd
      rcases List.mem_cons.mp ha with rfl | hmem
      · have hall : rest.countP (fun x => !(x == a)) = rest.length := by
          rw [List.countP_eq_length]
          intro x hx
          have hne : x ≠ a := by
            intro e
            exact hnd.1 (e ▸ hx)
          simp [beqDecide, hne]
        have hself : (!(a == a)) = false := by simp
        rw [List.countP_cons, hall, hself]
        simp
      · have hne : n ≠ a := fun e => hnd.1 (e ▸ hmem)
        have hp : (!(n == a)) = true := by simp [beqDecide, hne]
        rw [List.countP_cons, ih hnd.2 hmem, hp]
        have := List.length_pos_of_mem hmem
        simp only [if_true, List.length_cons]
        omega

theorem length_flatMap_eq (l : List α) (f : α → List β) :
    (l.flatMap f).length = (l.map fun a => (f a).length).sum := by
  induction l with
  | nil => simp
  | cons x xs ih => simp_all [List.flatMap]

theorem sum_map_const_nat (l : List α) (c : Nat) :
    (l.map fun _ => c).sum = l.length * c := by
  induction l with
  | nil => simp
  | cons x xs ih => simp [ih, Nat.succ_mul, Nat.add_comm]

theorem responseTasks_mem (agents : List String) (reviews : List Review)
    (hnd : (reviews.map Review.agentName).Nodup) (a b : String) :
    (a, b) ∈ responseTasks agents reviews
      ↔ a ∈ agents ∧ b ∈ reviews.map Review.agentName ∧ a ≠ b := by
  unfold responseTasks
  rw [reviewResultsDict_eq reviews hnd]
  simp only [List.mem_flatMap, List.mem_filterMap, List.mem_map]
  constructor
  · rintro ⟨a', ha', p, ⟨r, hr, rfl⟩, hif⟩
    by_cases h : a' ≠ r.agentName
    · rw [if_pos h] at hif
      obtain ⟨h1, h2⟩ := Prod.ext_iff.mp (Option.some.inj hif)
      subst h1
      subst h2
      exact ⟨ha', ⟨r, hr, rfl⟩, h⟩
    · rw [if_neg h] at hif
      cases hif
  · rintro ⟨ha, ⟨r, hr, hb⟩, hne⟩
    refine ⟨a, ha, (r.agentName, r), ⟨r, hr, rfl⟩, ?_⟩
    have hcond : a ≠ (r.agentName, r).1 := by
      rw [show ((r.agentName, r).1) = r.agentName from rfl, hb]
      exact hne
    rw [if_pos hcond]
    rw [show ((r.agentName, r).1) = r.agentName from rfl, hb]

theorem responseTasks_length (agents : List String) (reviews : List Review)
    (hndA : agents.Nodup) (hnames : reviews.map Review.agentName = agents) :
    (responseTasks agents reviews).length
      = agents.length * (agents.length - 1) := by
  unfold responseTasks
  rw [reviewResultsDict_eq reviews (by rw [hnames]; exact hndA)]
  rw [length_flatMap_eq]
  have hmap : (agents.map fun a =>
      ((reviews.map fun r => (r.agentName, r)).filterMap fun p =>
        if a ≠ p.1 then some (a, p.1) else none).length)
      = agents.map fun _ => agents.length - 1 := by
    apply List.map_congr_left
    intro a ha
    rw [filterMapIf_length]
    rw [List.map_map]
    have hfst : ((fun p : String × Review => p.1) ∘ fun r => (r.agentName, r))
        = Review.agentName := rfl
    rw [hfst, hnames]
    exact countP_ne_of_nodup agents hndA a ha
  rw [hmap, sum_map_const_nat]

/-! ## The claims -/

/-- Claim C1: for every non-empty list of votes (in an active session),
`build_consensus` succeeds; the tally counts APPROVE, REJECT and ABSTAIN
votes; and the final decision is APPROVE when approve-count strictly
exceeds reject-count, REJECT when reject-count strictly exceeds
approve-count, and REJECT on an exact tie — ABSTAIN votes never enter the
comparison. -/
theorem consensus_final_decision (st : OrchestratorState)
    (h1 : st.votes ≠ []) (h2 : optTruthy st.sessionId = true)
    (h3 : optTruthy st.code = true) :
    ∃ c, (build_consensus st).2 = Except.ok c
      ∧ c.voteCounts = countVotes st.votes
      ∧ c.finalDecision = decideFinal (countVotes st.votes)
      ∧ c.voteCounts.approve
          = (st.votes.filter fun v => v.decision == VoteDecision.APPROVE).length
      ∧ c.voteCounts.reject
          = (st.votes.filter fun v => v.decision == VoteDecision.REJECT).length
      ∧ c.voteCounts.abstain
          = (st.votes.filter fun v => v.decision == VoteDecision.ABSTAIN).length
      ∧ (c.voteCounts.reject < c.voteCounts.approve →
          c.finalDecision = VoteDecision.APPROVE)
      ∧ (c.voteCounts.approve < c.voteCounts.reject →
          c.finalDecision = VoteDecision.REJECT)
      ∧ (c.voteCounts.approve = c.voteCounts.reject →
          c.finalDecision = VoteDecision.REJECT) := by
  have hne : st.votes.isEmpty = false := List.isEmpty_eq_false.mpr h1
  unfold build_consensus
  rw [hne]
  simp only [Bool.false_eq_true, if_false]
  rw [h2, h3]
  simp only [Bool.not_true, Bool.or_self, Bool.false_eq_true, if_false]
  refine ⟨_, rfl, rfl, rfl, ?_, ?_, ?_, ?_, ?_, ?_⟩
  · rw [countVotes_eq]
  · rw [countVotes_eq]
  · rw [countVotes_eq]
  · intro h
    exact decideFinal_approve h
  · intro h
    exact decideFinal_reject h
  · intro h
    exact decideFinal_tie h

/-- Witness for C1 at the spec's tie scenario: votes APPROVE, APPROVE,
REJECT, REJECT give final decision REJECT and tally 2/2/0. -/
theorem consensus_final_decision_witness :
    ∃ c, (build_consensus c1State).2 = Except.ok c
      ∧ c.finalDecision = VoteDecision.REJECT
      ∧ c.voteCounts = ⟨2, 2, 0⟩ := by
  obtain ⟨c, hok, hcv, hfd, _, _, _, _, _, _⟩ :=
    consensus_final_decision c1State (by decide) (by decide) (by decide)
  refine ⟨c, hok, ?_, ?_⟩
  · rw [hfd]
    decide
  · rw [hcv]
    decide


/-- Claim C2: `build_consensus` promotes an issue instance into
`keyIssues` exactly according to the spec's rule — first-seen dedup over
normalized descriptions in panel scan order, kept iff the normalized
mention count is at least 2 or the severity is CRITICAL or HIGH
(the first conjunct, an equality with the spec-side definition); each
normalized description occurs at most once in `keyIssues` (second
conjunct); and any description mentioned at least twice across the panel
is represented (third conjunct). -/
theorem key_issue_promotion (reviews : List Review) :
    consensusKeyIssues reviews = specKeyIssues reviews
    ∧ (∀ d, (consensusKeyIssues reviews).countP
        (fun i => pyNorm i.description == d) ≤ 1)
    ∧ (∀ d, 2 ≤ countKey (fun i => pyNorm i.description)
          (allIssueInstances reviews) d →
        ∃ i ∈ consensusKeyIssues reviews, pyNorm i.description = d) := by
  refine ⟨consensusKeyIssues_eq_spec reviews, ?_, ?_⟩
  · intro d
    rw [consensusKeyIssues_eq_spec]
    simp only [specKeyIssues]
    refine Nat.le_trans (List.Sublist.countP_le _ (List.filter_sublist _)) ?_
    exact countP_key_le_one _ _ (keepFirst_map_key_nodup _ _) d
  · intro d hd
    rw [consensusKeyIssues_eq_spec]
    simp only [specKeyIssues]
    have hex : ∃ x ∈ allIssueInstances reviews, pyNorm x.description = d := by
      by_contra hno
      push_neg at hno
      have hz : countKey (fun i => pyNorm i.description)
          (allIssueInstances reviews) d = 0 := by
        simp only [countKey, List.length_eq_zero]
        apply List.filter_eq_nil_iff.mpr
        intro a ha
        simp only [beqDecide, decide_eq_true_eq]
        exact hno a ha
      omega
    rcases keepFirst_exists_key _ _ d hex with ⟨i, hi, hik⟩
    refine ⟨i, ?_, hik⟩
    refine List.mem_filter.mpr ⟨hi, ?_⟩
    rw [hik]
    simp [hd]

/-- Witness for C2: two reviews spell the same issue differently; the
normalized description "sql injection" is counted twice, appears exactly
once in the key issues, with the first-seen spelling. -/
theorem key_issue_promotion_witness :
    consensusKeyIssues c2Reviews = specKeyIssues c2Reviews
    ∧ (consensusKeyIssues c2Reviews).countP
        (fun i => pyNorm i.description == "sql injection") ≤ 1
    ∧ ∃ i ∈ consensusKeyIssues c2Reviews,
        pyNorm i.description = "sql injection" := by
  obtain ⟨h1, h2, h3⟩ := key_issue_promotion c2Reviews
  exact ⟨h1, h2 "sql injection", h3 "sql injection" (by decide)⟩

/-- Counterexample to C3 as stated: in a panel whose single review repeats
one normalized suggestion twice, that suggestion is mentioned by exactly
one reviewer and nevertheless appears in `acceptedSuggestions`, because the
source counts occurrences, not distinct reviewers. -/
theorem suggestion_promotion_counterexample :
    ([c3Review].filter fun r =>
        r.suggestions.any fun s => pyNorm s == pyNorm "Validate input").length
      = 1
    ∧ "Validate input" ∈ consensusAcceptedSuggestions [c3Review] := by
  decide

/-- Claim C3 (amended): a suggestion whose normalized text occurs exactly
once across all reviews never appears in `acceptedSuggestions`; one whose
normalized text is mentioned at least twice — in particular by two distinct
reviewers — always does; promotion is exactly the spec-side rule (mention
count at least 2 over first-seen dedup, severity playing no role), keeping
first-seen order. -/
theorem suggestion_promotion (reviews : List Review) :
    consensusAcceptedSuggestions reviews = specAcceptedSuggestions reviews
    ∧ (∀ s, countKey pyNorm (allSuggestionInstances reviews) (pyNorm s) = 1 →
        s ∉ consensusAcceptedSuggestions reviews)
    ∧ (∀ s ∈ allSuggestionInstances reviews,
        2 ≤ countKey pyNorm (allSuggestionInstances reviews) (pyNorm s) →
        ∃ t ∈ consensusAcceptedSuggestions reviews, pyNorm t = pyNorm s) := by
  refine ⟨consensusAcceptedSuggestions_eq_spec reviews, ?_, ?_⟩
  · intro s h1 hmem
    rw [consensusAcceptedSuggestions_eq_spec] at hmem
    simp only [specAcceptedSuggestions] at hmem
    have hp := (List.mem_filter.mp hmem).2
    simp only [decide_eq_true_eq] at hp
    omega
  · intro s hs hd
    rw [consensusAcceptedSuggestions_eq_spec]
    simp only [specAcceptedSuggestions]
    rcases keepFirst_exists_key pyNorm _ (pyNorm s) ⟨s, hs, rfl⟩ with ⟨t, ht, htk⟩
    refine ⟨t, ?_, htk⟩
    refine List.mem_filter.mpr ⟨ht, ?_⟩
    rw [htk]
    simp [hd]

/-- Witness for the amended C3: "refactor" is mentioned once and is not
accepted; "Add tests" is shared by two reviewers and is accepted. -/
theorem suggestion_promotion_witness :
    consensusAcceptedSuggestions c3Reviews = specAcceptedSuggestions c3Reviews
    ∧ "refactor" ∉ consensusAcceptedSuggestions c3Reviews
    ∧ ∃ t ∈ consensusAcceptedSuggestions c3Reviews,
        pyNorm t = pyNorm "Add tests" := by
  obtain ⟨h1, h2, h3⟩ := suggestion_promotion c3Reviews
  exact ⟨h1, h2 "refactor" (by decide), h3 "Add tests" (by decide) (by decide)⟩


/-- Claim C4: with a non-empty duplicate-free panel whose every review call
succeeded (one Review per agent, in panel order) and every respond call
succeeded (the settled results are, up to arrival order, exactly one per
task), the Round-2 task set is the complete set of ordered agent pairs
without self-pairs, and `run_responses` returns exactly
`N * (N - 1)` Responses. -/
theorem round2_complete_pairs (agents : List String) (st : OrchestratorState)
    (completed : List ResponseResult)
    (hA : agents ≠ []) (hnd : agents.Nodup)
    (hnames : st.reviews.map Review.agentName = agents)
    (h2 : optTruthy st.sessionId = true) (h3 : optTruthy st.code = true)
    (hsettle : (completed.map fun r => (r.agentName, r.respondingTo)).Perm
        (responseTasks agents st.reviews)) :
    (∀ a b : String, (a, b) ∈ responseTasks agents st.reviews
        ↔ a ∈ agents ∧ b ∈ agents ∧ a ≠ b)
    ∧ ∃ rs, (run_responses st agents completed).2 = Except.ok rs
        ∧ rs.length = agents.length * (agents.length - 1) := by
  have hndn : (st.reviews.map Review.agentName).Nodup := by
    rw [hnames]
    exact hnd
  constructor
  · intro a b
    rw [responseTasks_mem agents st.reviews hndn a b, hnames]
  · have hrev : st.reviews ≠ [] := by
      intro e
      rw [e] at hnames
      exact hA hnames.symm
    have hne : st.reviews.isEmpty = false := List.isEmpty_eq_false.mpr hrev
    unfold run_responses
    rw [hne]
    simp only [Bool.false_eq_true, if_false]
    rw [h2, h3]
    simp only [Bool.not_true, Bool.or_self, Bool.false_eq_true, if_false]
    refine ⟨_, rfl, ?_⟩
    rw [List.length_map, List.length_insertionSort]
    have hlen : completed.length = (responseTasks agents st.reviews).length := by
      have hp := hsettle.length_eq
      rwa [List.length_map] at hp
    rw [hlen, responseTasks_length agents st.reviews hnd hnames]

/-- Witness for C4: a 3-agent panel produces the pair (Alice, Bob) as a
task and exactly 6 responses. -/
theorem round2_complete_pairs_witness :
    (("Alice", "Bob") ∈ responseTasks c4Agents c4State.reviews)
    ∧ ∃ rs, (run_responses c4State c4Agents c4Completed).2 = Except.ok rs
        ∧ rs.length = 6 := by
  obtain ⟨hmem, rs, hok, hlen⟩ :=
    round2_complete_pairs c4Agents c4State c4Completed (by decide) (by decide)
      (by decide) (by decide) (by decide) (by decide)
  refine ⟨(hmem "Alice" "Bob").mpr (by decide), rs, hok, ?_⟩
  rw [hlen]
  decide


/-- Counterexample to C5 as stated: with the 4-reviewer panel where only
Dave's review call fails and every later call succeeds, Round 1 yields 3
Reviews but Round 2 yields 9 Responses, not 3 * 2 = 6 — the failed
reviewer still responds to each of the 3 Reviews, since the task loop runs
over the full panel. -/
theorem respond_round_partial_failure_counterexample :
    c5Round1.1.reviews.length = 3
    ∧ c5Round2.2.toOption.map List.length = some 9
    ∧ ¬(c5Round2.2.toOption.map List.length = some 6) := by
  decide

/-- Claim C5 (amended): in the same scenario, Round 1 yields 3 Reviews,
Round 2 yields 4 * 3 - 3 = 9 Responses (each of the 3 successful reviewers
responds to the other 2 Reviews and the failed reviewer responds to all 3),
and the debate still completes through voting and consensus with a
best-effort Consensus. -/
theorem respond_round_partial_failure :
    c5Round1.2.toOption.map List.length = some 3
    ∧ c5Tasks.length = 9
    ∧ c5Round2.2.toOption.map List.length = some 9
    ∧ (c5Round3.2.toOption.map List.length) = some 4
    ∧ c5Final.2.toOption.map Consensus.finalDecision
        = some VoteDecision.APPROVE := by
  decide


/-- Claim C6: stage-entry preconditions are errors — `run_responses` with no
Review raises the no-reviews `ValueError` and produces no Responses (the
stored responses are untouched), and `build_consensus` with no Vote raises
the no-votes `ValueError` instead of returning an empty Consensus (the
stored consensus is untouched). -/
theorem stage_preconditions :
    (∀ (st : OrchestratorState) (agents : List String)
        (completed : List ResponseResult),
      st.reviews = [] →
        (run_responses st agents completed).2
            = Except.error "No reviews to respond to. Call start_review() first."
          ∧ (run_responses st agents completed).1.responses = st.responses)
    ∧ (∀ st : OrchestratorState, st.votes = [] →
        (build_consensus st).2
            = Except.error "No votes to build consensus from. Call run_voting() first."
          ∧ (build_consensus st).1.consensus = st.consensus) := by
  constructor
  · intro st agents completed h
    unfold run_responses
    rw [h]
    simp
  · intro st h
    unfold build_consensus
    rw [h]
    simp

/-- Witness for C6 on a freshly constructed orchestrator. -/
theorem stage_preconditions_witness :
    (run_responses emptyState [] []).2
        = Except.error "No reviews to respond to. Call start_review() first."
    ∧ (build_consensus emptyState).2
        = Except.error "No votes to build consensus from. Call run_voting() first." :=
  ⟨(stage_preconditions.1 emptyState [] [] rfl).1,
   (stage_preconditions.2 emptyState rfl).1⟩

/-- Claim C9: when the no-reviews / no-votes precondition fires, the
orchestrator state is returned exactly as it was — the failing call mutates
no in-memory session state. -/
theorem precondition_atomicity :
    (∀ (st : OrchestratorState) (agents : List String)
        (completed : List ResponseResult),
      st.reviews = [] → (run_responses st agents completed).1 = st)
    ∧ (∀ st : OrchestratorState, st.votes = [] →
        (build_consensus st).1 = st) := by
  constructor
  · intro st agents completed h
    unfold run_responses
    rw [h]
    simp
  · intro st h
    unfold build_consensus
    rw [h]
    simp

/-- Witness for C9 on a freshly constructed orchestrator. -/
theorem precondition_atomicity_witness :
    (run_responses emptyState [] []).1 = emptyState
    ∧ (build_consensus emptyState).1 = emptyState :=
  ⟨precondition_atomicity.1 emptyState [] [] rfl,
   precondition_atomicity.2 emptyState rfl⟩

/-- Claim C8: an empty panel makes `start_review` fail with the
`ThreadPoolExecutor` `ValueError` (a fatal precondition violation) rather
than complete with an empty Review set. -/
theorem empty_panel_fatal (st : OrchestratorState) (newSessionId code : String)
    (context : Option String) (reviewOf : String → Option ReviewResult) :
    (start_review st [] newSessionId code context reviewOf).2
      = Except.error "max_workers must be greater than 0" := by
  unfold start_review
  simp

/-- Claim C10: `start_review` begins a fresh session — new session id, new
code and context, reviews recomputed — while `get_responses`, `get_votes`
and `get_consensus` still return the previous debate's artifacts. -/
theorem fresh_session_frame (st : OrchestratorState) (agents : List String)
    (newSessionId code : String) (context : Option String)
    (reviewOf : String → Option ReviewResult) :
    get_responses (start_review st agents newSessionId code context reviewOf).1
        = get_responses st
    ∧ get_votes (start_review st agents newSessionId code context reviewOf).1
        = get_votes st
    ∧ get_consensus (start_review st agents newSessionId code context reviewOf).1
        = get_consensus st
    ∧ (start_review st agents newSessionId code context reviewOf).1.sessionId
        = some newSessionId
    ∧ (start_review st agents newSessionId code context reviewOf).1.code
        = some code
    ∧ (start_review st agents newSessionId code context reviewOf).1.context
        = context := by
  unfold start_review get_responses get_votes get_consensus
  by_cases h : agents.isEmpty <;> simp [h]


/-- Claim C7: whatever the completion order of the concurrent tasks, the
Response list returned and accumulated by `run_responses` is sorted
ascending by the pair (agentName, respondingTo), and the Vote list returned
by `run_voting` is sorted ascending by agentName (string comparison over
code points). -/
theorem settled_results_sorted :
    (∀ (st : OrchestratorState) (agents : List String)
        (completed : List ResponseResult),
      st.reviews ≠ [] → optTruthy st.sessionId = true →
      optTruthy st.code = true →
        ∃ rs, (run_responses st agents completed).2 = Except.ok rs
          ∧ (run_responses st agents completed).1.responses = rs
          ∧ rs.Pairwise (fun a b =>
              a.agentName.data < b.agentName.data
                ∨ (a.agentName.data = b.agentName.data
                    ∧ a.respondingTo.data ≤ b.respondingTo.data)))
    ∧ (∀ (st : OrchestratorState) (completed : List VoteResult),
      st.reviews ≠ [] → optTruthy st.sessionId = true →
      optTruthy st.code = true →
        ∃ vs, (run_voting st completed).2 = Except.ok vs
          ∧ (run_voting st completed).1.votes = vs
          ∧ vs.Pairwise (fun a b => a.agentName.data ≤ b.agentName.data)) := by
  constructor
  · intro st agents completed h1 h2 h3
    have hne : st.reviews.isEmpty = false := List.isEmpty_eq_false.mpr h1
    unfold run_responses
    rw [hne]
    simp only [Bool.false_eq_true, if_false]
    rw [h2, h3]
    simp only [Bool.not_true, Bool.or_self, Bool.false_eq_true, if_false]
    refine ⟨_, rfl, rfl, ?_⟩
    have hs : (completed.insertionSort respLE).Pairwise respLE :=
      List.sorted_insertionSort respLE completed
    exact List.Pairwise.map _ (fun a b hab => hab) hs
  · intro st completed h1 h2 h3
    have hne : st.reviews.isEmpty = false := List.isEmpty_eq_false.mpr h1
    unfold run_voting
    rw [hne]
    simp only [Bool.false_eq_true, if_false]
    rw [h2, h3]
    simp only [Bool.not_true, Bool.or_self, Bool.false_eq_true, if_false]
    refine ⟨_, rfl, rfl, ?_⟩
    have hs : (completed.insertionSort voteLE).Pairwise voteLE :=
      List.sorted_insertionSort voteLE completed
    exact List.Pairwise.map _ (fun a b hab => hab) hs

/-- Witness for C7: two results arriving out of order are returned
sorted. -/
theorem settled_results_sorted_witness :
    ∃ rs, (run_responses c7State [] c7Completed).2 = Except.ok rs
      ∧ rs.Pairwise (fun a b =>
          a.agentName.data < b.agentName.data
            ∨ (a.agentName.data = b.agentName.data
                ∧ a.respondingTo.data ≤ b.respondingTo.data))
      ∧ ∃ vs, (run_voting c7State c7Votes).2 = Except.ok vs
          ∧ vs.Pairwise (fun a b => a.agentName.data ≤ b.agentName.data) := by
  obtain ⟨rs, hok, _, hsort⟩ :=
    settled_results_sorted.1 c7State [] c7Completed (by decide) (by decide)
      (by decide)
  obtain ⟨vs, hok2, _, hsort2⟩ :=
    settled_results_sorted.2 c7State c7Votes (by decide) (by decide) (by decide)
  exact ⟨rs, hok, hsort, vs, hok2, hsort2⟩


end Consensys
